import Mathlib

/-!
Verification of the bounded diff-rendering and structured-generation pipeline
of the `ccc-jj` tool, as a shallow embedding of its Rust sources
(`src/diff.rs`, `src/main.rs`, `src/claude_client.rs`,
`src/bookmark_generator.rs`, `src/commit_message_generator.rs`).

Machine strings are modelled as Lean `String` / `List Char`; byte lengths use
`String.utf8ByteSize`; Rust's Unicode-aware `char::is_whitespace` and
`str::to_lowercase` are modelled on their ASCII fragment (`Char.isWhitespace`,
ASCII lowercasing), which is exact on all inputs appearing in the claims.
External collaborators (the glob matcher, the `similar` line-diff primitive,
`serde_json`'s parser, the operating system process API) are modelled as
abstract inputs: a path predicate, inserted/deleted line counts, an
`Option JsonValue` parse outcome, and an exit-status flag.
-/

/-! ## Collapse policy (src/diff.rs) -/

/-- Embeds `collapse_reason` (src/diff.rs lines 96-112): the human-readable
reason string, with pattern match taking precedence over the line limit,
which takes precedence over the byte limit. -/
def collapse_reason (pattern_match : Bool) (line_count byte_size max_lines max_bytes : Nat) :
    String :=
  if pattern_match then "collapsed: matches pattern"
  else if line_count > max_lines then "collapsed: exceeds line limit"
  else if byte_size > max_bytes then "collapsed: exceeds size limit"
  else "collapsed"

/-- The verdict of the collapse policy: whether the file's diff is collapsed,
and (when collapsed) the reason string emitted into the summary line. -/
structure CollapseVerdict where
  collapse : Bool
  reason : Option String
  deriving Repr, DecidableEq

/-- Embeds the per-entry collapse test of `get_tree_diff`
(src/diff.rs lines 147-166): `should_collapse` comes from the optional glob
matcher (`collapse_matcher.map(|m| m.is_match(path_str)).unwrap_or(false)`),
`should_collapse_size` is `line_count > max_diff_lines || byte_size > max_diff_bytes`,
and the reason is computed by `collapse_reason` only when collapsing.
The glob matcher is abstracted as a path predicate. -/
def collapse_decide (collapse_matcher : Option (String → Bool)) (path_str : String)
    (line_count byte_size max_diff_lines max_diff_bytes : Nat) : CollapseVerdict :=
  let should_collapse := (collapse_matcher.map (fun m => m path_str)).getD false
  let should_collapse_size :=
    decide (line_count > max_diff_lines) || decide (byte_size > max_diff_bytes)
  if should_collapse || should_collapse_size then
    { collapse := true
      reason := some (collapse_reason should_collapse line_count byte_size
        max_diff_lines max_diff_bytes) }
  else
    { collapse := false, reason := none }

/-- Embeds the modified-pair branch of `get_tree_diff`
(src/diff.rs lines 209-232): both sides decoded as UTF-8, `added`/`removed`
are the insert/delete counts of the external line-level diff primitive
(abstracted as inputs), and `byte_size` is
`before_content.len().max(after_content.len())` — the raw byte lengths of the
two sides, not a diff-derived quantity. -/
def modified_collapse_decide (pattern_match : Bool)
    (added removed before_len after_len max_diff_lines max_diff_bytes : Nat) :
    CollapseVerdict :=
  let byte_size := Nat.max before_len after_len
  let should_collapse_size :=
    decide (added + removed > max_diff_lines) || decide (byte_size > max_diff_bytes)
  if pattern_match || should_collapse_size then
    { collapse := true
      reason := some (collapse_reason pattern_match (added + removed) byte_size
        max_diff_lines max_diff_bytes) }
  else
    { collapse := false, reason := none }

/-! ## Rust `str::lines` and the aggregate size gate (src/main.rs) -/

/-- Splits a character list at every occurrence of `sep`; the separator is
consumed. `splitOnChar sep [] = [[]]`, matching Rust's `str::split`. -/
def splitOnChar (sep : Char) : List Char → List (List Char)
  | [] => [[]]
  | c :: rest =>
    if c = sep then [] :: splitOnChar sep rest
    else
      match splitOnChar sep rest with
      | [] => [[c]]
      | part :: parts => (c :: part) :: parts

/-- Drops a single trailing carriage return, as Rust's `str::lines` does
for `\r\n` line endings. -/
def dropTrailingCR (cs : List Char) : List Char :=
  match cs.getLast? with
  | some '\r' => cs.dropLast
  | _ => cs

/-- Embeds Rust's `str::lines`: split at `\n`, the final line ending being
optional (no empty trailing line), with a trailing `\r` stripped from each
line. `rustLines "".data = []`, `rustLines "a\n".data = ["a".data]`. -/
def rustLines (cs : List Char) : List (List Char) :=
  let parts := splitOnChar '\n' cs
  let parts := if parts.getLast? = some [] then parts.dropLast else parts
  parts.map dropTrailingCR

/-- Embeds `diff.lines().count()` (src/main.rs line 711). -/
def rustLineCount (s : String) : Nat :=
  (rustLines s.data).length

/-- The fatal message of the aggregate gate (src/main.rs lines 718-721),
naming the measured line and byte counts and the configured limits. -/
def gate_message (diff_lines diff_bytes max_lines max_bytes : Nat) : String :=
  "Diff too large to generate commit message: " ++ toString diff_lines ++
    " lines / " ++ toString diff_bytes ++ " bytes (limits: " ++
    toString max_lines ++ " lines / " ++ toString max_bytes ++
    " bytes). Consider committing in smaller chunks or using `jj describe` to set the message manually."

/-- Outcome of the tail of `run_commit` from the aggregate gate onwards. -/
inductive CommitOutcome where
  | budgetError (msg : String)
  | generationFailed (msg : String)
  | committed (msg : String)
  deriving Repr, DecidableEq

/-- Embeds `run_commit` from the aggregate size gate onwards
(src/main.rs lines 711-733): measure `diff.lines().count()` and `diff.len()`
(UTF-8 bytes), refuse with a fatal error when either strictly exceeds its
aggregate limit, and only otherwise invoke the commit-message generator
(abstracted as a function from the diff text to an optional message). -/
def run_commit_gate (diff : String) (max_lines max_bytes : Nat)
    (generate : String → Option String) : CommitOutcome :=
  let diff_lines := rustLineCount diff
  let diff_bytes := diff.utf8ByteSize
  if diff_lines > max_lines || diff_bytes > max_bytes then
    .budgetError (gate_message diff_lines diff_bytes max_lines max_bytes)
  else
    match generate diff with
    | some msg => .committed msg
    | none => .generationFailed "Failed to generate commit message, aborting commit"

/-! ## JSON values and the structured agent client (src/claude_client.rs) -/

/-- JSON values as produced by the external `serde_json` parser. Numeric
payloads never reach a claim, so numbers carry an integer. Object fields are
an association list (serde maps have unique keys). -/
inductive JsonValue where
  | null
  | bool (b : Bool)
  | num (n : Int)
  | str (s : String)
  | arr (elems : List JsonValue)
  | obj (fields : List (String × JsonValue))

/-- Association-list lookup, the first binding of the key. -/
def lookupField : List (String × JsonValue) → String → Option JsonValue
  | [], _ => none
  | (k, v) :: rest, key => if k = key then some v else lookupField rest key

/-- Embeds `serde_json::Value::get` with a string index: a field lookup on
objects, `None` on every other variant. -/
def JsonValue.get : JsonValue → String → Option JsonValue
  | .obj fields, key => lookupField fields key
  | _, _ => none

/-- Embeds `serde_json::Value::as_str`. -/
def JsonValue.asStr : JsonValue → Option String
  | .str s => some s
  | _ => none

/-- Embeds the `rfind` predicate of `parse_structured_output`
(src/claude_client.rs line 94): `obj.get("type").and_then(|v| v.as_str()) == Some("result")`. -/
def is_result_event (v : JsonValue) : Bool :=
  decide ((v.get "type").bind JsonValue.asStr = some "result")

/-- Embeds `parse_structured_output` (src/claude_client.rs lines 89-112)
applied to an already-parsed value: on an array, the `structured_output`
field of the last element whose `type` is `"result"` (Rust's
`Iterator::rfind`, here `find?` on the reversed list); on anything else,
the value's own `structured_output` field (`None` for non-objects). -/
def parse_structured_output (json : JsonValue) : Option JsonValue :=
  match json with
  | .arr elems =>
    (elems.reverse.find? is_result_event).bind (fun o => o.get "structured_output")
  | _ => json.get "structured_output"

/-- Embeds `invoke_claude` (src/claude_client.rs lines 60-86) downstream of
the process wait: a non-zero exit status yields `None` regardless of stdout;
on success, stdout is handed to the external JSON parser (its outcome is the
`Option JsonValue` input, `none` on a parse failure) and then to
`parse_structured_output`. -/
def invoke_claude (exit_success : Bool) (parsed_stdout : Option JsonValue) :
    Option JsonValue :=
  if exit_success then parsed_stdout.bind parse_structured_output else none

/-! ## Subprocess wire shape (argv and stdin) -/

/-- What a generator hands to `std::process::Command`: the program, the
argument vector, and the bytes written to the child's standard input. -/
structure SpawnedCommand where
  program : String
  argv : List String
  stdin_data : String
  deriving Repr, DecidableEq

/-- Embeds the command construction of `invoke_claude`
(src/claude_client.rs lines 43-58): base args, then `--model <id>` and
`--json-schema <schema>`; the prompt goes to the child's stdin. -/
def claude_client_command (command : String) (args : List String)
    (model json_schema prompt : String) : SpawnedCommand :=
  { program := command
    argv := args ++ ["--model", model, "--json-schema", json_schema]
    stdin_data := prompt }

/-- The `JSON_SCHEMA` constant of src/bookmark_generator.rs line 40
(brace and apostrophe characters written as escapes). -/
def BOOKMARK_JSON_SCHEMA : String :=
  "\x7b\"type\":\"object\",\"properties\":\x7b\"bookmark\":\x7b\"type\":\"string\",\"description\":\"Bookmark name: 2-6 lowercase words separated by hyphens, e.g. \x27add-user-auth\x27\"\x7d\x7d,\"required\":[\"bookmark\"]\x7d"

/-- Embeds the command construction of `CommitMessageGenerator::try_generate`
(src/commit_message_generator.rs lines 138-152): base args, then
`--model <id>` only — no `--json-schema` flag is appended — and the prompt
is written to the child's stdin. -/
def commit_message_command (command : String) (args : List String)
    (model prompt : String) : SpawnedCommand :=
  { program := command
    argv := args ++ ["--model", model]
    stdin_data := prompt }

/-- Embeds the command construction of `BookmarkGenerator::try_generate`
(src/bookmark_generator.rs lines 95-110): base args, then `--model <id>` and
`--json-schema JSON_SCHEMA`; the prompt is written to the child's stdin. -/
def bookmark_command (command : String) (args : List String)
    (model prompt : String) : SpawnedCommand :=
  { program := command
    argv := args ++ ["--model", model, "--json-schema", BOOKMARK_JSON_SCHEMA]
    stdin_data := prompt }

/-! ## Trimming and lowercasing -/

/-- Embeds Rust's `str::trim` (whitespace modelled by `Char.isWhitespace`,
the ASCII fragment of Rust's Unicode `char::is_whitespace`). -/
def rustTrim (cs : List Char) : List Char :=
  ((cs.dropWhile Char.isWhitespace).reverse.dropWhile Char.isWhitespace).reverse

/-- ASCII lowercasing of one character, the fragment of Rust's
`str::to_lowercase` exercised by bookmark names. -/
def asciiToLower (c : Char) : Char :=
  if 'A' ≤ c && c ≤ 'Z' then Char.ofNat (c.toNat + 32) else c

/-! ## Bookmark slug grammar (src/bookmark_generator.rs) -/

/-- The character class `[a-z]`. -/
def isLowerAlpha (c : Char) : Bool := 'a' ≤ c && c ≤ 'z'

/-- The character class `[a-z0-9]`. -/
def isLowerAlnum (c : Char) : Bool := isLowerAlpha c || ('0' ≤ c && c ≤ '9')

/-- Consumes one `[a-z][a-z0-9]*` segment greedily, returning the remainder;
fails when the first character is not `[a-z]`. Greedy consumption is exact
for `VALID_BOOKMARK_RE` because `[a-z0-9]` is disjoint from the characters
that may follow a segment (`-` or end of input). -/
def parse_segment : List Char → Option (List Char)
  | [] => none
  | c :: rest => if isLowerAlpha c then some (rest.dropWhile isLowerAlnum) else none

/-- Counts the `(-[a-z][a-z0-9]*)` groups consuming the whole remainder;
`none` when the remainder is not exactly a sequence of such groups. Fuel
bounds the recursion; any fuel at least the list length is enough. -/
def dash_segments : Nat → List Char → Option Nat
  | _, [] => some 0
  | 0, _ :: _ => none
  | fuel + 1, c :: r =>
    if c = '-' then
      (parse_segment r).bind (fun r2 => (dash_segments fuel r2).map (· + 1))
    else none

/-- Embeds `VALID_BOOKMARK_RE` (src/bookmark_generator.rs lines 36-38):
a full match of `^[a-z][a-z0-9]*(-[a-z][a-z0-9]*){1,5}$`, decided by the
deterministic greedy parse (exact for this regex, whose character classes
are disjoint from the group separator). -/
def valid_bookmark (cs : List Char) : Bool :=
  match parse_segment cs with
  | none => false
  | some r =>
    match dash_segments cs.length r with
    | none => false
    | some k => decide (1 ≤ k) && decide (k ≤ 5)

/-- One segment as the specification describes it: nonempty, lowercase
alphanumeric, starting with a letter. -/
def segment_ok (cs : List Char) : Bool :=
  match cs with
  | [] => false
  | c :: rest => isLowerAlpha c && rest.all isLowerAlnum

/-- Written from the specification's words, for comparison with
`valid_bookmark`: 2 to 6 lowercase alphanumeric segments joined by single
hyphens, each segment starting with a letter. -/
def bookmark_described (cs : List Char) : Bool :=
  let parts := splitOnChar '-' cs
  decide (2 ≤ parts.length) && decide (parts.length ≤ 6) && parts.all segment_ok

/-- Specification of `dash_segments` used in the equivalence proof: a
remainder is either empty (zero groups) or a hyphen followed by hyphen-split
parts that are all well-formed segments. -/
def tail_spec (r : List Char) : Option Nat :=
  match r with
  | [] => some 0
  | '-' :: s =>
    let parts := splitOnChar '-' s
    if parts.all segment_ok then some parts.length else none
  | _ => none

/-- Embeds the normalization in `BookmarkGenerator::generate`
(src/bookmark_generator.rs line 62): `name.trim().to_lowercase()`. -/
def bookmark_normalize (name : List Char) : List Char :=
  (rustTrim name).map asciiToLower

/-- Embeds the validation closure of `BookmarkGenerator::generate`
(src/bookmark_generator.rs lines 61-70): normalize, then keep the name only
when it matches `VALID_BOOKMARK_RE`, else discard entirely. -/
def bookmark_validate (name : List Char) : Option (List Char) :=
  let n := bookmark_normalize name
  if valid_bookmark n then some n else none

/-! ## Conventional-commit title grammar (src/commit_message_generator.rs) -/

/-- The regex class `\s`, ASCII fragment (space, tab, line feed, vertical
tab, form feed, carriage return). -/
def isRegexSpace (c : Char) : Bool :=
  c = ' ' || c = '\t' || c = '\n' || c = '\x0b' || c = '\x0c' || c = '\r'

/-- Matches `:\s.+` at the head of the input: a colon, one whitespace
character, then at least one character (regex `.` excludes a line feed). -/
def cc_colon : List Char → Bool
  | ':' :: c :: d :: _ => isRegexSpace c && !(d = '\n')
  | _ => false

/-- Matches `(?:!)?:\s.+`: an optional bang, then `cc_colon`. Deterministic:
when the input starts with `!`, the alternative without the bang would need
`:` at that position and fails. -/
def cc_opt_bang : List Char → Bool
  | '!' :: rest => cc_colon rest
  | cs => cc_colon cs

/-- Matches `(?:\([^)]+\))?(?:!)?:\s.+`: an optional parenthesized scope
(one or more non-`)` characters), then `cc_opt_bang`. Deterministic: when
the input starts with `(`, the alternative without the scope would need `!`
or `:` at that position and fails, and `[^)]+` can only stop at the first
`)`. -/
def cc_scope : List Char → Bool
  | '(' :: rest =>
    let sc := rest.takeWhile (fun c => !(c = ')'))
    match rest.dropWhile (fun c => !(c = ')')) with
    | ')' :: r4 => !sc.isEmpty && cc_opt_bang r4
    | _ => false
  | cs => cc_opt_bang cs

/-- Embeds `CONVENTIONAL_COMMIT_RE.is_match`
(src/commit_message_generator.rs lines 59-62):
`^[a-z]+(?:\([^)]+\))?(?:!)?:\s.+`, decided by a deterministic greedy
parse — exact for this regex because `[a-z]` is disjoint from `(`, `!` and
`:`, so no backtracking alternative can succeed where the greedy parse
fails. The regex has no end anchor, so anything may follow the matched
description character. -/
def conventional_commit_is_match (cs : List Char) : Bool :=
  !(cs.takeWhile isLowerAlpha).isEmpty && cc_scope (cs.dropWhile isLowerAlpha)

/-- Embeds `message.lines().next().unwrap_or("")`
(src/commit_message_generator.rs line 101): the characters before the first
line feed (any trailing carriage return is later removed by `trim`). -/
def first_line (cs : List Char) : List Char :=
  cs.takeWhile (fun c => !(c = '\n'))

/-- Embeds the validation closure of `CommitMessageGenerator::generate`
(src/commit_message_generator.rs lines 100-109): when the trimmed first
line matches the conventional-commit title shape the message is returned
unmodified, otherwise the configured default commit message is prepended as
`format!("{}\n\n{message}", default)`. -/
def commit_validate (default_commit_message message : List Char) : List Char :=
  if conventional_commit_is_match (rustTrim (first_line message)) then message
  else default_commit_message ++ '\n' :: '\n' :: message

/-! ## Added/deleted file rendering (src/diff.rs) -/

/-- The constant `MAX_LINES` (src/diff.rs line 16), the per-entry render cap. -/
def MAX_LINES : Nat := 50

/-- The four header lines of `format_added_removed_diff`
(src/diff.rs lines 66-73): the `diff --git` line, the status, and the
`---`/`+++` file names. -/
def diff_header (path_str : List Char) (is_added : Bool) : List (List Char) :=
  [ "diff --git a/".data ++ path_str ++ " b/".data ++ path_str,
    if is_added then "new file".data else "deleted file".data,
    "--- ".data ++ (if is_added then "/dev/null".data else "a/".data ++ path_str),
    "+++ ".data ++ (if is_added then "b/".data ++ path_str else "/dev/null".data) ]

/-- The truncation trailer `... ({k} more lines)` (src/diff.rs line 86). -/
def trailer_line (k : Nat) : List Char :=
  "... (".data ++ (toString k).data ++ " more lines)".data

/-- Embeds the UTF-8 branch of `format_added_removed_diff`
(src/diff.rs lines 58-93) at line granularity (each Rust `writeln!` appends
one line): the header, then the first `max_lines` content lines each
prefixed with `+` (added) or `-` (deleted), then, only when the content is
longer than `max_lines`, one trailer naming the number of omitted lines.
`content_lines` is `text.lines()` of the decoded file content. -/
def format_added_removed_diff (path_str : List Char) (content_lines : List (List Char))
    (is_added : Bool) (max_lines : Nat) : List (List Char) :=
  let pfx : Char := if is_added then '+' else '-'
  diff_header path_str is_added
    ++ (content_lines.take max_lines).map (fun l => pfx :: l)
    ++ (if max_lines < content_lines.length then
          [trailer_line (content_lines.length - max_lines)]
        else [])

/-! ## Payload extraction before validation (both generators) -/

/-- Embeds the stdout handling of `CommitMessageGenerator::try_generate`
(src/commit_message_generator.rs lines 162-175): on failure exit `None`;
on success the trimmed stdout text, or `None` when it is empty after
trimming. -/
def commit_try_extract (exit_success : Bool) (stdout : List Char) : Option (List Char) :=
  if exit_success then
    let message := rustTrim stdout
    if message.isEmpty then none else some message
  else none

/-- The function `CommitMessageGenerator::generate` with its validation closure
abstracted, to state that the closure is never consulted when extraction
fails: `generate` is `try_generate(..).map(validate)`. -/
def commit_generate_with (exit_success : Bool) (stdout : List Char)
    (validate : List Char → List Char) : Option (List Char) :=
  (commit_try_extract exit_success stdout).map validate

/-- Embeds `CommitMessageGenerator::generate`
(src/commit_message_generator.rs lines 98-110) end to end. -/
def commit_generate (exit_success : Bool) (stdout default_commit_message : List Char) :
    Option (List Char) :=
  commit_generate_with exit_success stdout (commit_validate default_commit_message)

/-- The string payload of an optional JSON value:
`v.as_str().unwrap_or("")`. -/
def json_str_or_empty (v : Option JsonValue) : String :=
  (v.bind JsonValue.asStr).getD ""

/-- The agent's bookmark payload of a parsed stdout value: the
`structured_output` extraction followed by the `bookmark` field as a string,
empty when absent (src/bookmark_generator.rs lines 140-145). -/
def bookmark_payload (json : JsonValue) : List Char :=
  (json_str_or_empty ((parse_structured_output json).bind
    (fun s => JsonValue.get s "bookmark"))).data

/-- Embeds the stdout handling of `BookmarkGenerator::try_generate`
(src/bookmark_generator.rs lines 112-170): on failure exit `None`; on
success, parse stdout (outcome abstracted as `Option JsonValue`), extract
`structured_output` exactly as `parse_structured_output` does (the logic is
duplicated verbatim in this generator), read the `bookmark` field with
`.and_then(as_str).unwrap_or("").trim()`, and return `None` when the result
is empty. -/
def bookmark_try_extract (exit_success : Bool) (parsed_stdout : Option JsonValue) :
    Option (List Char) :=
  if exit_success then
    match parsed_stdout with
    | none => none
    | some json =>
      match parse_structured_output json with
      | none => none
      | some structured =>
        let bookmark := rustTrim (json_str_or_empty (structured.get "bookmark")).data
        if bookmark.isEmpty then none else some bookmark
  else none

/-- The function `BookmarkGenerator::generate` with its validation closure abstracted:
`generate` is `try_generate(..).and_then(validate)`. -/
def bookmark_generate_with (exit_success : Bool) (parsed_stdout : Option JsonValue)
    (validate : List Char → Option (List Char)) : Option (List Char) :=
  (bookmark_try_extract exit_success parsed_stdout).bind validate

/-- Embeds `BookmarkGenerator::generate` (src/bookmark_generator.rs
lines 59-71) end to end. -/
def bookmark_generate (exit_success : Bool) (parsed_stdout : Option JsonValue) :
    Option (List Char) :=
  bookmark_generate_with exit_success parsed_stdout bookmark_validate

/-! ## Helper lemmas -/

theorem data_append (s t : String) : (s ++ t).data = s.data ++ t.data := by
  cases s; cases t; rfl

theorem dropWhile_head_false {p : Char → Bool} {l : List Char} {e : Char} {rest : List Char}
    (h : l.dropWhile p = e :: rest) : p e = false := by
  have := List.head?_dropWhile_not p l
  rw [h] at this
  simpa using this

/-! ## Claim theorems: collapse policy -/

/-- Claim C1: the collapse decision is a pure function of the path, the
statistics, the thresholds and the glob matcher, and the reason follows a
strict precedence: a configured pattern match yields the pattern reason even
when the size limits are also exceeded; otherwise a line count strictly above
`max_diff_lines` yields the line-limit reason; otherwise a byte size strictly
above `max_diff_bytes` yields the byte-limit reason; otherwise the file is
not collapsed. -/
theorem collapse_policy_precedence
    (collapse_matcher : Option (String → Bool)) (path_str : String)
    (line_count byte_size max_diff_lines max_diff_bytes : Nat) :
    ((collapse_matcher.map (fun m => m path_str)).getD false = true →
       collapse_decide collapse_matcher path_str line_count byte_size
           max_diff_lines max_diff_bytes =
         ⟨true, some "collapsed: matches pattern"⟩) ∧
    ((collapse_matcher.map (fun m => m path_str)).getD false = false →
       line_count > max_diff_lines →
       collapse_decide collapse_matcher path_str line_count byte_size
           max_diff_lines max_diff_bytes =
         ⟨true, some "collapsed: exceeds line limit"⟩) ∧
    ((collapse_matcher.map (fun m => m path_str)).getD false = false →
       line_count ≤ max_diff_lines → byte_size > max_diff_bytes →
       collapse_decide collapse_matcher path_str line_count byte_size
           max_diff_lines max_diff_bytes =
         ⟨true, some "collapsed: exceeds size limit"⟩) ∧
    ((collapse_matcher.map (fun m => m path_str)).getD false = false →
       line_count ≤ max_diff_lines → byte_size ≤ max_diff_bytes →
       collapse_decide collapse_matcher path_str line_count byte_size
           max_diff_lines max_diff_bytes = ⟨false, none⟩) := by
  refine ⟨?_, ?_, ?_, ?_⟩
  · intro hm
    simp [collapse_decide, collapse_reason, hm]
  · intro hm hl
    simp [collapse_decide, collapse_reason, hm, hl]
  · intro hm hl hb
    simp [collapse_decide, collapse_reason, hm, Nat.not_lt.mpr hl, hb]
  · intro hm hl hb
    simp [collapse_decide, hm, Nat.not_lt.mpr hl, Nat.not_lt.mpr hb]

/-- Claim C1 witness: the precedence theorem applied at concrete inputs,
one per branch. -/
theorem collapse_policy_precedence_checked :
    collapse_decide (some (fun p => p = "big.lock")) "big.lock" 500 5000 100 1000 =
      ⟨true, some "collapsed: matches pattern"⟩ ∧
    collapse_decide (some (fun p => p = "big.lock")) "src/a.rs" 500 5000 100 1000 =
      ⟨true, some "collapsed: exceeds line limit"⟩ ∧
    collapse_decide none "src/a.rs" 50 5000 100 1000 =
      ⟨true, some "collapsed: exceeds size limit"⟩ ∧
    collapse_decide none "src/a.rs" 50 500 100 1000 = ⟨false, none⟩ := by
  refine ⟨?_, ?_, ?_, ?_⟩
  · exact (collapse_policy_precedence (some (fun p => p = "big.lock")) "big.lock"
      500 5000 100 1000).1 (by decide)
  · exact (collapse_policy_precedence (some (fun p => p = "big.lock")) "src/a.rs"
      500 5000 100 1000).2.1 (by decide) (by decide)
  · exact (collapse_policy_precedence none "src/a.rs" 50 5000 100 1000).2.2.1
      rfl (by decide) (by decide)
  · exact (collapse_policy_precedence none "src/a.rs" 50 500 100 1000).2.2.2
      rfl (by decide) (by decide)

/-- Claim C2 counterexample: a modified pair whose line-level diff is a
single changed line (1 inserted, 1 deleted), with no pattern match, in a
file of 5000 raw bytes on each side against `max_diff_bytes = 1000`, IS
collapsed, on size grounds alone — the byte component of the decision is
the raw file length, not a diff-derived size. -/
theorem modified_collapse_raw_bytes_counterexample :
    modified_collapse_decide false 1 1 5000 5000 100 1000 =
      ⟨true, some "collapsed: exceeds size limit"⟩ := by decide

/-- Claim C2 (amended): for modified pairs the line-count component of the
collapse decision is the diff-derived `added + removed`, but the byte
component is the raw byte length `max(before, after)`; so with no pattern
match, a small line-level change avoids collapse exactly when the raw size
is also within `max_diff_bytes`, and is otherwise collapsed with the
byte-limit reason. -/
theorem modified_collapse_components
    (added removed before_len after_len max_diff_lines max_diff_bytes : Nat) :
    (added + removed ≤ max_diff_lines → Nat.max before_len after_len ≤ max_diff_bytes →
       modified_collapse_decide false added removed before_len after_len
         max_diff_lines max_diff_bytes = ⟨false, none⟩) ∧
    (added + removed ≤ max_diff_lines → Nat.max before_len after_len > max_diff_bytes →
       modified_collapse_decide false added removed before_len after_len
         max_diff_lines max_diff_bytes =
         ⟨true, some "collapsed: exceeds size limit"⟩) ∧
    (added + removed > max_diff_lines →
       modified_collapse_decide false added removed before_len after_len
         max_diff_lines max_diff_bytes =
         ⟨true, some "collapsed: exceeds line limit"⟩) := by
  refine ⟨?_, ?_, ?_⟩
  · intro hl hb
    simp [modified_collapse_decide, Nat.not_lt.mpr hl, Nat.not_lt.mpr hb]
  · intro hl hb
    simp [modified_collapse_decide, collapse_reason, Nat.not_lt.mpr hl, hb]
  · intro hl
    simp [modified_collapse_decide, collapse_reason, hl]

/-- Claim C2 witness: the amended component theorem applied at concrete
inputs — a one-line change in a small file is rendered, the same change in
a 5000-byte file is collapsed with the byte-limit reason. -/
theorem modified_collapse_components_checked :
    modified_collapse_decide false 1 1 300 300 100 1000 = ⟨false, none⟩ ∧
    modified_collapse_decide false 1 1 300 5000 100 1000 =
      ⟨true, some "collapsed: exceeds size limit"⟩ := by
  refine ⟨?_, ?_⟩
  · exact (modified_collapse_components 1 1 300 300 100 1000).1 (by decide) (by decide)
  · exact (modified_collapse_components 1 1 300 5000 100 1000).2.1 (by decide) (by decide)

/-! ## Claim theorems: aggregate size gate -/

theorem middle_of_append {m w : List Char} (s t : List Char) (h : w = s ++ (m ++ t)) :
    m <:+: w := ⟨s, t, by rw [h, List.append_assoc]⟩

theorem gate_message_mentions (dl db ml mb : Nat) :
    (toString dl).data <:+: (gate_message dl db ml mb).data ∧
    (toString db).data <:+: (gate_message dl db ml mb).data ∧
    (toString ml).data <:+: (gate_message dl db ml mb).data ∧
    (toString mb).data <:+: (gate_message dl db ml mb).data := by
  refine ⟨?_, ?_, ?_, ?_⟩
  · exact middle_of_append "Diff too large to generate commit message: ".data
      (" lines / ".data ++ (toString db).data ++ " bytes (limits: ".data ++
        (toString ml).data ++ " lines / ".data ++ (toString mb).data ++
        " bytes). Consider committing in smaller chunks or using `jj describe` to set the message manually.".data)
      (by simp [gate_message, data_append])
  · exact middle_of_append
      ("Diff too large to generate commit message: ".data ++ (toString dl).data ++
        " lines / ".data)
      (" bytes (limits: ".data ++ (toString ml).data ++ " lines / ".data ++
        (toString mb).data ++
        " bytes). Consider committing in smaller chunks or using `jj describe` to set the message manually.".data)
      (by simp [gate_message, data_append])
  · exact middle_of_append
      ("Diff too large to generate commit message: ".data ++ (toString dl).data ++
        " lines / ".data ++ (toString db).data ++ " bytes (limits: ".data)
      (" lines / ".data ++ (toString mb).data ++
        " bytes). Consider committing in smaller chunks or using `jj describe` to set the message manually.".data)
      (by simp [gate_message, data_append])
  · exact middle_of_append
      ("Diff too large to generate commit message: ".data ++ (toString dl).data ++
        " lines / ".data ++ (toString db).data ++ " bytes (limits: ".data ++
        (toString ml).data ++ " lines / ".data)
      " bytes). Consider committing in smaller chunks or using `jj describe` to set the message manually.".data
      (by simp [gate_message, data_append])

/-- Claim C3: for every diff text within the aggregate byte limit, a text
of exactly `max_total_lines` lines passes the gate and generation is
invoked; a text of exactly `max_total_lines + 1` lines yields the fatal
budget error — whose message names the measured line count, the measured
byte count and both configured limits — and the outcome does not depend on
the generator, which is therefore never invoked. -/
theorem aggregate_gate_boundary (diff : String) (max_total_lines max_total_bytes : Nat)
    (generate : String → Option String)
    (hbytes : diff.utf8ByteSize ≤ max_total_bytes) :
    (rustLineCount diff = max_total_lines →
       run_commit_gate diff max_total_lines max_total_bytes generate =
         match generate diff with
         | some msg => .committed msg
         | none => .generationFailed "Failed to generate commit message, aborting commit") ∧
    (rustLineCount diff = max_total_lines + 1 →
       run_commit_gate diff max_total_lines max_total_bytes generate =
         .budgetError (gate_message (max_total_lines + 1) diff.utf8ByteSize
           max_total_lines max_total_bytes) ∧
       (toString (max_total_lines + 1)).data <:+:
         (gate_message (max_total_lines + 1) diff.utf8ByteSize
           max_total_lines max_total_bytes).data ∧
       (toString diff.utf8ByteSize).data <:+:
         (gate_message (max_total_lines + 1) diff.utf8ByteSize
           max_total_lines max_total_bytes).data ∧
       (toString max_total_lines).data <:+:
         (gate_message (max_total_lines + 1) diff.utf8ByteSize
           max_total_lines max_total_bytes).data ∧
       (toString max_total_bytes).data <:+:
         (gate_message (max_total_lines + 1) diff.utf8ByteSize
           max_total_lines max_total_bytes).data) := by
  constructor
  · intro hl
    simp [run_commit_gate, hl, Nat.not_lt.mpr hbytes]
  · intro hl
    refine ⟨?_, (gate_message_mentions _ _ _ _).1, (gate_message_mentions _ _ _ _).2.1,
      (gate_message_mentions _ _ _ _).2.2.1, (gate_message_mentions _ _ _ _).2.2.2⟩
    simp [run_commit_gate, hl, Nat.not_lt.mpr hbytes]

/-- Claim C3 witness: the boundary theorem applied to the two-line text
`"a\nb"` with limits 2 (pass) and 1 (refusal). -/
theorem aggregate_gate_boundary_checked :
    run_commit_gate "a\nb" 2 100 (fun _ => some "msg") = .committed "msg" ∧
    run_commit_gate "a\nb" 1 100 (fun _ => some "msg") =
      .budgetError (gate_message 2 3 1 100) := by
  constructor
  · exact (aggregate_gate_boundary "a\nb" 2 100 (fun _ => some "msg") (by decide)).1
      (by decide)
  · exact ((aggregate_gate_boundary "a\nb" 1 100 (fun _ => some "msg") (by decide)).2
      (by decide)).1

/-! ## Claim theorems: structured agent client -/

theorem find?_reverse_eq_some {α : Type} {p : α → Bool} {l : List α} {o : α}
    (h : l.reverse.find? p = some o) :
    ∃ l₁ l₂, l = l₁ ++ o :: l₂ ∧ p o = true ∧ ∀ x ∈ l₂, p x = false := by
  induction l using List.reverseRecOn with
  | nil => simp at h
  | append_singleton l a ih =>
    rw [List.reverse_append] at h
    simp only [List.reverse_singleton, List.singleton_append, List.find?_cons] at h
    cases hpa : p a with
    | true =>
      rw [hpa] at h
      injection h with h
      exact ⟨l, [], by simp [h], h ▸ hpa, by simp⟩
    | false =>
      rw [hpa] at h
      obtain ⟨l₁, l₂, hdec, hpo, hrest⟩ := ih h
      refine ⟨l₁, l₂ ++ [a], by simp [hdec], hpo, ?_⟩
      intro x hx
      rcases List.mem_append.mp hx with hx | hx
      · exact hrest x hx
      · simp at hx
        exact hx ▸ hpa

/-- Claim C4: `invoke` returns `Some` exactly in the two accepted shapes.
A non-zero exit yields `None` regardless of stdout; a stdout that does not
parse yields `None`; a parsed single object yields its `structured_output`
field (`None` when the field is missing); a parsed array yields the
`structured_output` field of the last element whose `type` field equals
`"result"` (the decomposition clause makes "last" precise); any other
parsed shape — no `structured_output` field and not an array — yields
`None`. -/
theorem invoke_claude_characterization (exit_success : Bool)
    (parsed_stdout : Option JsonValue) :
    (exit_success = false → invoke_claude exit_success parsed_stdout = none) ∧
    (parsed_stdout = none → invoke_claude exit_success parsed_stdout = none) ∧
    (∀ fields, exit_success = true → parsed_stdout = some (.obj fields) →
       invoke_claude exit_success parsed_stdout = lookupField fields "structured_output") ∧
    (∀ elems, exit_success = true → parsed_stdout = some (.arr elems) →
       invoke_claude exit_success parsed_stdout =
         (elems.reverse.find? is_result_event).bind
           (fun o => JsonValue.get o "structured_output") ∧
       ∀ o, elems.reverse.find? is_result_event = some o →
         ∃ l₁ l₂, elems = l₁ ++ o :: l₂ ∧ is_result_event o = true ∧
           ∀ x ∈ l₂, is_result_event x = false) ∧
    (∀ j, exit_success = true → parsed_stdout = some j →
       JsonValue.get j "structured_output" = none → (∀ elems, j ≠ .arr elems) →
       invoke_claude exit_success parsed_stdout = none) := by
  refine ⟨?_, ?_, ?_, ?_, ?_⟩
  · intro h; simp [invoke_claude, h]
  · intro h; simp [invoke_claude, h]
  · intro fields he hp
    simp [invoke_claude, he, hp, parse_structured_output, JsonValue.get]
  · intro elems he hp
    refine ⟨by simp [invoke_claude, he, hp, parse_structured_output], ?_⟩
    intro o ho
    exact find?_reverse_eq_some ho
  · intro j he hp hget harr
    subst hp
    simp only [invoke_claude, he, if_true, Option.bind_some]
    cases j with
    | arr elems => exact absurd rfl (harr elems)
    | obj fields => simpa [parse_structured_output] using hget
    | null => simp [parse_structured_output, JsonValue.get]
    | bool b => simp [parse_structured_output, JsonValue.get]
    | num n => simp [parse_structured_output, JsonValue.get]
    | str s => simp [parse_structured_output, JsonValue.get]

/-- Claim C4 witness: the characterization applied to the specification's
example — stdout parsing to a single object with a `structured_output`
field and exit code 0 yields that field; exit code 1 with the same stdout
yields `None`; an array of events yields the payload of the last `"result"`
event. -/
theorem invoke_claude_characterization_checked :
    invoke_claude true
        (some (.obj [("structured_output", .obj [("bookmark", .str "add-user-auth")])])) =
      some (.obj [("bookmark", .str "add-user-auth")]) ∧
    invoke_claude false
        (some (.obj [("structured_output", .obj [("bookmark", .str "add-user-auth")])])) =
      none ∧
    invoke_claude true
        (some (.arr [.obj [("type", .str "result"), ("structured_output", .str "old")],
                     .obj [("type", .str "message")],
                     .obj [("type", .str "result"), ("structured_output", .str "new")]])) =
      some (.str "new") := by
  refine ⟨?_, ?_, ?_⟩
  · have := (invoke_claude_characterization true
      (some (.obj [("structured_output", .obj [("bookmark", .str "add-user-auth")])]))).2.2.1
      [("structured_output", .obj [("bookmark", .str "add-user-auth")])] rfl rfl
    rw [this]
    rfl
  · exact (invoke_claude_characterization false
      (some (.obj [("structured_output", .obj [("bookmark", .str "add-user-auth")])]))).1 rfl
  · have := ((invoke_claude_characterization true
      (some (.arr [.obj [("type", .str "result"), ("structured_output", .str "old")],
                   .obj [("type", .str "message")],
                   .obj [("type", .str "result"), ("structured_output", .str "new")]]))).2.2.2.1
      [.obj [("type", .str "result"), ("structured_output", .str "old")],
       .obj [("type", .str "message")],
       .obj [("type", .str "result"), ("structured_output", .str "new")]] rfl rfl).1
    rw [this]
    rfl

/-! ## Claim theorems: bookmark slug grammar -/

theorem splitOnChar_ne_nil (sep : Char) (cs : List Char) : splitOnChar sep cs ≠ [] := by
  induction cs with
  | nil => simp [splitOnChar]
  | cons c rest ih =>
    by_cases h : c = sep
    · simp [splitOnChar, h]
    · simp only [splitOnChar, if_neg h]
      cases hs : splitOnChar sep rest with
      | nil => simp
      | cons q qs => simp

theorem splitOnChar_cons_sep (sep : Char) (rest : List Char) :
    splitOnChar sep (sep :: rest) = [] :: splitOnChar sep rest := by
  simp [splitOnChar]

theorem splitOnChar_cons_ne {sep c : Char} (rest : List Char) (h : ¬ c = sep)
    {q : List Char} {qs : List (List Char)} (hs : splitOnChar sep rest = q :: qs) :
    splitOnChar sep (c :: rest) = (c :: q) :: qs := by
  simp [splitOnChar, h, hs]

theorem splitOnChar_append {sep : Char} {p : List Char} (hp : sep ∉ p) (xs : List Char)
    {q : List Char} {qs : List (List Char)} (hs : splitOnChar sep xs = q :: qs) :
    splitOnChar sep (p ++ xs) = (p ++ q) :: qs := by
  induction p with
  | nil => simpa using hs
  | cons c p' ih =>
    have hc : ¬ c = sep := fun h => hp (h ▸ List.mem_cons_self c p')
    have hp' : sep ∉ p' := fun h => hp (List.mem_cons_of_mem c h)
    have := ih hp'
    rw [List.cons_append]
    rw [splitOnChar_cons_ne (p' ++ xs) hc this]
    simp

theorem splitOnChar_no_sep {sep : Char} {p : List Char} (hp : sep ∉ p) :
    splitOnChar sep p = [p] := by
  have := splitOnChar_append hp [] (show splitOnChar sep [] = [] :: [] from rfl)
  simpa using this

theorem parse_segment_none {cs : List Char} (h : parse_segment cs = none) :
    cs = [] ∨ ∃ c rest, cs = c :: rest ∧ isLowerAlpha c = false := by
  cases cs with
  | nil => exact Or.inl rfl
  | cons c rest =>
    right
    refine ⟨c, rest, rfl, ?_⟩
    by_contra hb
    have hc : isLowerAlpha c = true := by
      cases hx : isLowerAlpha c
      · exact absurd hx hb
      · rfl
    simp [parse_segment, hc] at h

theorem parse_segment_some {cs r : List Char} (h : parse_segment cs = some r) :
    ∃ d run, cs = (d :: run) ++ r ∧ isLowerAlpha d = true ∧
      (∀ x ∈ run, isLowerAlnum x = true) ∧
      (∀ e rest2, r = e :: rest2 → isLowerAlnum e = false) := by
  cases cs with
  | nil => simp [parse_segment] at h
  | cons c rest =>
    by_cases hc : isLowerAlpha c = true
    · simp only [parse_segment, hc, if_true, Option.some.injEq] at h
      refine ⟨c, rest.takeWhile isLowerAlnum, ?_, hc, ?_, ?_⟩
      · rw [← h]
        simp [List.takeWhile_append_dropWhile]
      · intro x hx
        exact List.mem_takeWhile_imp hx
      · intro e rest2 hr
        exact dropWhile_head_false (h.trans hr)
    · have hc' : isLowerAlpha c = false := by
        cases hx : isLowerAlpha c
        · rfl
        · exact absurd hx hc
      simp [parse_segment, hc'] at h

theorem lower_alpha_ne_hyphen {d : Char} (h : isLowerAlpha d = true) : ¬ d = '-' := by
  intro he
  subst he
  exact absurd h (by decide)

theorem lower_alnum_ne_hyphen {d : Char} (h : isLowerAlnum d = true) : ¬ d = '-' := by
  intro he
  subst he
  exact absurd h (by decide)

theorem seg_no_hyphen {d : Char} {run : List Char} (hd : isLowerAlpha d = true)
    (hrun : ∀ x ∈ run, isLowerAlnum x = true) : '-' ∉ (d :: run) := by
  intro hmem
  rcases List.mem_cons.mp hmem with hmem | hmem
  · exact lower_alpha_ne_hyphen hd hmem.symm
  · exact lower_alnum_ne_hyphen (hrun _ hmem) rfl

theorem tail_spec_cons_ne {e : Char} {rest2 : List Char} (h : ¬ e = '-') :
    tail_spec (e :: rest2) = none := by
  simp only [tail_spec]
  split
  · rename_i heq
    exact absurd heq (by simp)
  · rename_i s heq
    injection heq with h1 h2
    exact absurd h1 h
  · rfl

theorem dash_segments_spec : ∀ (fuel : Nat) (r : List Char), r.length ≤ fuel →
    dash_segments fuel r = tail_spec r := by
  intro fuel
  induction fuel with
  | zero =>
    intro r hr
    have : r = [] := List.length_eq_zero.mp (Nat.le_zero.mp hr)
    subst this
    rfl
  | succ fuel ih =>
    intro r hr
    cases r with
    | nil => rfl
    | cons c r' =>
      by_cases hc : c = '-'
      · subst hc
        simp only [dash_segments, if_true, tail_spec]
        cases hps : parse_segment r' with
        | none =>
          rcases parse_segment_none hps with hnil | ⟨d, rest, hdec, hd⟩
          · subst hnil
            simp [splitOnChar, segment_ok]
          · subst hdec
            by_cases hdh : d = '-'
            · subst hdh
              rw [splitOnChar_cons_sep]
              simp [segment_ok]
            · cases hs : splitOnChar '-' rest with
              | nil => exact absurd hs (splitOnChar_ne_nil '-' rest)
              | cons q qs =>
                rw [splitOnChar_cons_ne rest hdh hs]
                simp [segment_ok, hd]
        | some r2 =>
          obtain ⟨d, run, hdec, hd, hrun, hhead⟩ := parse_segment_some hps
          have hseg : segment_ok (d :: run) = true := by
            simp only [segment_ok, hd, Bool.true_and, List.all_eq_true]
            exact hrun
          have hnoh : '-' ∉ (d :: run) := seg_no_hyphen hd hrun
          have hlen2 : r2.length ≤ fuel := by
            have h1 : r'.length ≤ fuel := by simpa using hr
            have h2 : ((d :: run) ++ r2).length ≤ fuel := hdec ▸ h1
            simp [List.length_append] at h2
            omega
          cases r2 with
          | nil =>
            subst hdec
            rw [splitOnChar_append hnoh [] (show splitOnChar '-' [] = [] :: [] from rfl)]
            simp only [Option.some_bind, List.append_nil, List.all_cons, hseg,
              Bool.true_and, List.all_nil]
            simp [dash_segments]
          | cons e rest2 =>
            have he : isLowerAlnum e = false := hhead e rest2 rfl
            by_cases heh : e = '-'
            · subst heh
              subst hdec
              have hs2 : splitOnChar '-' ('-' :: rest2) = [] :: splitOnChar '-' rest2 :=
                splitOnChar_cons_sep '-' rest2
              rw [splitOnChar_append hnoh ('-' :: rest2) hs2]
              simp only [Option.some_bind]
              rw [ih ('-' :: rest2) hlen2]
              simp only [tail_spec, List.append_nil, List.all_cons, hseg, Bool.true_and]
              by_cases hall : (splitOnChar '-' rest2).all segment_ok = true
              · simp [hall]
              · have hall' : (splitOnChar '-' rest2).all segment_ok = false :=
                  Bool.eq_false_iff.mpr hall
                simp [hall']
            · subst hdec
              cases hs : splitOnChar '-' rest2 with
              | nil => exact absurd hs (splitOnChar_ne_nil '-' rest2)
              | cons q qs =>
                have hs2 := splitOnChar_cons_ne rest2 heh hs
                rw [splitOnChar_append hnoh (e :: rest2) hs2]
                simp only [Option.some_bind]
                rw [ih (e :: rest2) hlen2]
                rw [tail_spec_cons_ne heh]
                have hbad : segment_ok (d :: (run ++ e :: q)) = false := by
                  simp only [segment_ok, hd, Bool.true_and]
                  exact List.all_eq_false.mpr ⟨e, by simp, by simp [he]⟩
                simp [List.cons_append, hbad]
      · have hcc : dash_segments (fuel + 1) (c :: r') = none := by
          simp [dash_segments, hc]
        rw [hcc, tail_spec_cons_ne hc]

theorem valid_bookmark_eq_described (cs : List Char) :
    valid_bookmark cs = bookmark_described cs := by
  cases hps : parse_segment cs with
  | none =>
    have hv : valid_bookmark cs = false := by simp [valid_bookmark, hps]
    rw [hv]
    rcases parse_segment_none hps with hnil | ⟨c, rest, hdec, hc⟩
    · subst hnil
      rfl
    · subst hdec
      by_cases hch : c = '-'
      · subst hch
        simp [bookmark_described, splitOnChar_cons_sep, segment_ok]
      · cases hs : splitOnChar '-' rest with
        | nil => exact absurd hs (splitOnChar_ne_nil '-' rest)
        | cons q qs =>
          rw [bookmark_described, splitOnChar_cons_ne rest hch hs]
          simp [segment_ok, hc]
  | some r =>
    obtain ⟨d, run, hdec, hd, hrun, hhead⟩ := parse_segment_some hps
    have hseg : segment_ok (d :: run) = true := by
      simp only [segment_ok, hd, Bool.true_and, List.all_eq_true]
      exact hrun
    have hnoh : '-' ∉ (d :: run) := seg_no_hyphen hd hrun
    have hlen : r.length ≤ cs.length := by
      rw [hdec]
      simp [List.length_append]
      omega
    have hv0 : valid_bookmark cs =
        match dash_segments cs.length r with
        | none => false
        | some k => decide (1 ≤ k) && decide (k ≤ 5) := by
      rw [valid_bookmark, hps]
    have hv : valid_bookmark cs =
        match tail_spec r with
        | none => false
        | some k => decide (1 ≤ k) && decide (k ≤ 5) := by
      rw [hv0, dash_segments_spec cs.length r hlen]
    rw [hv]
    cases r with
    | nil =>
      subst hdec
      rw [bookmark_described, List.append_nil, splitOnChar_no_sep hnoh]
      simp [tail_spec]
    | cons e rest2 =>
      have he : isLowerAlnum e = false := hhead e rest2 rfl
      by_cases heh : e = '-'
      · subst heh
        subst hdec
        have hs2 : splitOnChar '-' ('-' :: rest2) = [] :: splitOnChar '-' rest2 :=
          splitOnChar_cons_sep '-' rest2
        rw [bookmark_described, splitOnChar_append hnoh ('-' :: rest2) hs2]
        simp only [tail_spec, List.append_nil, List.all_cons, hseg, Bool.true_and]
        by_cases hall : (splitOnChar '-' rest2).all segment_ok = true
        · have e1 : decide (2 ≤ (splitOnChar '-' rest2).length + 1) =
              decide (1 ≤ (splitOnChar '-' rest2).length) := decide_eq_decide.mpr (by omega)
          have e2 : decide ((splitOnChar '-' rest2).length + 1 ≤ 6) =
              decide ((splitOnChar '-' rest2).length ≤ 5) := decide_eq_decide.mpr (by omega)
          simp only [hall, if_true, List.length_cons, e1, e2, Bool.and_true]
        · have hall' : (splitOnChar '-' rest2).all segment_ok = false :=
            Bool.eq_false_iff.mpr hall
          simp [hall']
      · subst hdec
        cases hs : splitOnChar '-' rest2 with
        | nil => exact absurd hs (splitOnChar_ne_nil '-' rest2)
        | cons q qs =>
          have hs2 := splitOnChar_cons_ne rest2 heh hs
          rw [bookmark_described, splitOnChar_append hnoh (e :: rest2) hs2]
          rw [tail_spec_cons_ne heh]
          have hbad : segment_ok (d :: (run ++ e :: q)) = false := by
            simp only [segment_ok, hd, Bool.true_and]
            exact List.all_eq_false.mpr ⟨e, by simp, by simp [he]⟩
          simp [List.cons_append, hbad]

/-- Claim C5: the bookmark validator accepts exactly the strings of 2 to 6
lowercase alphanumeric segments joined by single hyphens, each segment
starting with a letter (the regex language coincides with that description);
the specification's four examples behave as stated; and a generated name
whose normalized form does not match is fully discarded (`None`). -/
theorem bookmark_validator_grammar :
    (∀ cs : List Char, valid_bookmark cs = bookmark_described cs) ∧
    valid_bookmark "add-user-auth".data = true ∧
    valid_bookmark "Add-User".data = false ∧
    valid_bookmark "a".data = false ∧
    valid_bookmark "a-b-c-d-e-f-g".data = false ∧
    (∀ name : List Char, valid_bookmark (bookmark_normalize name) = false →
       bookmark_validate name = none) := by
  refine ⟨valid_bookmark_eq_described, by decide, by decide, by decide, by decide, ?_⟩
  intro name h
  simp [bookmark_validate, h]

/-- Claim C5 witness: the discard clause applied at concrete inputs whose
normalized forms fail the grammar, and the positive example. -/
theorem bookmark_validator_grammar_checked :
    bookmark_validate "a".data = none ∧
    bookmark_validate "Bad_Name".data = none ∧
    valid_bookmark "add-user-auth".data = true := by
  refine ⟨?_, ?_, bookmark_validator_grammar.2.1⟩
  · exact bookmark_validator_grammar.2.2.2.2.2 "a".data (by decide)
  · exact bookmark_validator_grammar.2.2.2.2.2 "Bad_Name".data (by decide)

/-! ## Trimming lemmas and the bookmark generation postcondition -/

theorem dropWhile_idem (p : Char → Bool) (l : List Char) :
    (l.dropWhile p).dropWhile p = l.dropWhile p := by
  induction l with
  | nil => rfl
  | cons a l ih =>
    by_cases h : p a = true
    · simp [List.dropWhile_cons, h, ih]
    · have h' : p a = false := Bool.eq_false_iff.mpr h
      simp [List.dropWhile_cons, h']

theorem rustTrim_head_false {cs : List Char} {a : Char} {t : List Char}
    (h : rustTrim cs = a :: t) : Char.isWhitespace a = false := by
  have hpref : rustTrim cs <+: cs.dropWhile Char.isWhitespace := by
    apply List.reverse_suffix.mp
    rw [rustTrim, List.reverse_reverse]
    exact List.dropWhile_suffix _
  obtain ⟨s, hs⟩ := hpref
  rw [h] at hs
  exact dropWhile_head_false (l := cs) hs.symm

theorem rustTrim_idem (cs : List Char) : rustTrim (rustTrim cs) = rustTrim cs := by
  have h1 : (rustTrim cs).dropWhile Char.isWhitespace = rustTrim cs := by
    cases hx : rustTrim cs with
    | nil => rfl
    | cons a t =>
      have := rustTrim_head_false hx
      simp [List.dropWhile_cons, this]
  show (((rustTrim cs).dropWhile _).reverse.dropWhile _).reverse = rustTrim cs
  rw [h1]
  rw [rustTrim, List.reverse_reverse, dropWhile_idem]

/-- Claim C10: whenever bookmark generation returns `Some s`, the process
exited successfully, stdout parsed, and `s` is the trimmed, ASCII-lowercased
form of the agent's bookmark payload — so it may differ from the raw
payload — and `s` matches the slug grammar (both as the regex and as its
2-to-6-segment description). -/
theorem bookmark_generate_postcondition (exit_success : Bool)
    (parsed_stdout : Option JsonValue) (s : List Char)
    (h : bookmark_generate exit_success parsed_stdout = some s) :
    exit_success = true ∧
    ∃ json, parsed_stdout = some json ∧
      s = (rustTrim (bookmark_payload json)).map asciiToLower ∧
      valid_bookmark s = true ∧ bookmark_described s = true := by
  cases exit_success with
  | false =>
    simp [bookmark_generate, bookmark_generate_with, bookmark_try_extract] at h
  | true =>
    cases parsed_stdout with
    | none =>
      simp [bookmark_generate, bookmark_generate_with, bookmark_try_extract] at h
    | some json =>
      refine ⟨rfl, json, rfl, ?_⟩
      cases hpso : parse_structured_output json with
      | none =>
        simp [bookmark_generate, bookmark_generate_with, bookmark_try_extract, hpso] at h
      | some structured =>
        have hpay : bookmark_payload json =
            (json_str_or_empty (structured.get "bookmark")).data := by
          simp [bookmark_payload, hpso]
        by_cases hemp :
            (rustTrim (json_str_or_empty (structured.get "bookmark")).data).isEmpty = true
        · simp [bookmark_generate, bookmark_generate_with, bookmark_try_extract, hpso,
            hemp] at h
        · have hemp' :
              (rustTrim (json_str_or_empty (structured.get "bookmark")).data).isEmpty
                = false := Bool.eq_false_iff.mpr hemp
          have hb : bookmark_generate true (some json) =
              bookmark_validate
                (rustTrim (json_str_or_empty (structured.get "bookmark")).data) := by
            simp [bookmark_generate, bookmark_generate_with, bookmark_try_extract, hpso,
              hemp']
          rw [hb] at h
          by_cases hval : valid_bookmark (bookmark_normalize
              (rustTrim (json_str_or_empty (structured.get "bookmark")).data)) = true
          · rw [bookmark_validate] at h
            rw [if_pos hval] at h
            injection h with h
            subst h
            refine ⟨?_, hval, ?_⟩
            · rw [hpay, bookmark_normalize, rustTrim_idem]
            · rw [← valid_bookmark_eq_described]
              exact hval
          · rw [bookmark_validate] at h
            rw [if_neg hval] at h
            exact absurd h (by simp)

/-- Claim C10 witness: the postcondition applied to a concrete agent
response whose payload needs both trimming and lowercasing. -/
theorem bookmark_generate_postcondition_checked :
    true = true ∧
    ∃ json, (some (JsonValue.obj [("structured_output",
        JsonValue.obj [("bookmark", JsonValue.str " Add-User-Auth ")])]) :
          Option JsonValue) = some json ∧
      "add-user-auth".data = (rustTrim (bookmark_payload json)).map asciiToLower ∧
      valid_bookmark "add-user-auth".data = true ∧
      bookmark_described "add-user-auth".data = true :=
  bookmark_generate_postcondition true
    (some (JsonValue.obj [("structured_output",
      JsonValue.obj [("bookmark", JsonValue.str " Add-User-Auth ")])]))
    "add-user-auth".data (by decide)

/-! ## Claim theorems: commit-message validator -/

/-- Claim C6: when the trimmed first line of a generated message matches the
conventional-commit title shape the message is returned unmodified;
otherwise the configured default commit message is prepended and the whole
original text is still present (as a suffix, with no truncation); the
specification's two examples behave as stated. -/
theorem commit_message_validator :
    (∀ default_commit_message message : List Char,
       (conventional_commit_is_match (rustTrim (first_line message)) = true →
          commit_validate default_commit_message message = message) ∧
       (conventional_commit_is_match (rustTrim (first_line message)) = false →
          commit_validate default_commit_message message =
            default_commit_message ++ '\n' :: '\n' :: message ∧
          message <:+ commit_validate default_commit_message message)) ∧
    conventional_commit_is_match (rustTrim (first_line "feat: add thing".data)) = true ∧
    conventional_commit_is_match (rustTrim (first_line "added thing".data)) = false := by
  refine ⟨?_, by decide, by decide⟩
  intro d m
  constructor
  · intro h
    simp [commit_validate, h]
  · intro h
    have hne : commit_validate d m = d ++ '\n' :: '\n' :: m := by
      simp [commit_validate, h]
    refine ⟨hne, ?_⟩
    rw [hne]
    exact ⟨d ++ ['\n', '\n'], by simp⟩

/-- Claim C6 witness: the validator theorem applied to the specification's
two examples with a concrete configured default. -/
theorem commit_message_validator_checked :
    commit_validate "chore: update".data "feat: add thing".data =
      "feat: add thing".data ∧
    commit_validate "chore: update".data "added thing".data =
      "chore: update".data ++ '\n' :: '\n' :: "added thing".data := by
  constructor
  · exact (commit_message_validator.1 "chore: update".data "feat: add thing".data).1
      (by decide)
  · exact ((commit_message_validator.1 "chore: update".data "added thing".data).2
      (by decide)).1

/-! ## Claim theorems: added/deleted rendering cap -/

theorem diff_header_length (path_str : List Char) (is_added : Bool) :
    (diff_header path_str is_added).length = 4 := by
  cases is_added <;> rfl

theorem trailer_line_head (k : Nat) : (trailer_line k).head? = some '.' := by
  have h : "... (".data = ['.', '.', '.', ' ', '('] := rfl
  simp [trailer_line, h]

/-- Claim C7: for an added or deleted UTF-8 file that is not collapsed,
when its line count is at most the render cap (`MAX_LINES = 50`) the body
of the rendered diff is exactly one prefixed line per content line — so
exactly `line_count` prefixed lines and no truncation trailer; when the
line count exceeds the cap, the body holds exactly `MAX_LINES` prefixed
lines plus one final trailer naming `line_count - MAX_LINES` omitted
lines. -/
theorem added_removed_render_cap (path_str content : List Char) (is_added : Bool) :
    ((rustLines content).length ≤ MAX_LINES →
       (format_added_removed_diff path_str (rustLines content) is_added MAX_LINES).drop 4 =
         (rustLines content).map (fun l => (if is_added then '+' else '-') :: l) ∧
       ((format_added_removed_diff path_str (rustLines content) is_added MAX_LINES).drop 4).countP
           (fun l => decide (l.head? = some (if is_added then '+' else '-'))) =
         (rustLines content).length) ∧
    (MAX_LINES < (rustLines content).length →
       ((format_added_removed_diff path_str (rustLines content) is_added MAX_LINES).drop 4).countP
           (fun l => decide (l.head? = some (if is_added then '+' else '-'))) = MAX_LINES ∧
       ((format_added_removed_diff path_str (rustLines content) is_added MAX_LINES).drop 4).length =
         MAX_LINES + 1 ∧
       ((format_added_removed_diff path_str (rustLines content) is_added MAX_LINES).drop 4).getLast? =
         some (trailer_line ((rustLines content).length - MAX_LINES))) := by
  have hdrop : ∀ tail : List (List Char),
      ((diff_header path_str is_added ++ tail).drop 4) = tail := by
    intro tail
    rw [← diff_header_length path_str is_added, List.drop_left]
  constructor
  · intro hle
    have hbody : (format_added_removed_diff path_str (rustLines content) is_added
        MAX_LINES).drop 4 =
        (rustLines content).map (fun l => (if is_added then '+' else '-') :: l) := by
      rw [format_added_removed_diff]
      rw [List.take_of_length_le hle, if_neg (Nat.not_lt.mpr hle), List.append_nil]
      exact hdrop _
    refine ⟨hbody, ?_⟩
    rw [hbody]
    rw [List.countP_eq_length.mpr ?_, List.length_map]
    intro a ha
    obtain ⟨l, _, hl⟩ := List.mem_map.mp ha
    subst hl
    simp
  · intro hlt
    have hbody : (format_added_removed_diff path_str (rustLines content) is_added
        MAX_LINES).drop 4 =
        ((rustLines content).take MAX_LINES).map
            (fun l => (if is_added then '+' else '-') :: l) ++
          [trailer_line ((rustLines content).length - MAX_LINES)] := by
      rw [format_added_removed_diff, if_pos hlt]
      exact hdrop _
    have htake : ((rustLines content).take MAX_LINES).length = MAX_LINES := by
      rw [List.length_take]
      exact Nat.min_eq_left (Nat.le_of_lt hlt)
    rw [hbody]
    refine ⟨?_, ?_, ?_⟩
    · rw [List.countP_append]
      have h1 : (((rustLines content).take MAX_LINES).map
          (fun l => (if is_added then '+' else '-') :: l)).countP
            (fun l => decide (l.head? = some (if is_added then '+' else '-'))) =
          MAX_LINES := by
        rw [List.countP_eq_length.mpr ?_, List.length_map, htake]
        intro a ha
        obtain ⟨l, _, hl⟩ := List.mem_map.mp ha
        subst hl
        simp
      have h2 : ([trailer_line ((rustLines content).length - MAX_LINES)] :
          List (List Char)).countP
            (fun l => decide (l.head? = some (if is_added then '+' else '-'))) = 0 := by
        have hh := trailer_line_head ((rustLines content).length - MAX_LINES)
        have : ¬ ((trailer_line ((rustLines content).length - MAX_LINES)).head? =
            some (if is_added then '+' else '-')) := by
          rw [hh]
          cases is_added <;> simp
        simp [List.countP_cons, this]
      rw [h1, h2]
      rfl
    · rw [List.length_append, List.length_map, htake]
      rfl
    · simp [List.getLast?_concat]

/-- Claim C7 witness: the cap theorem applied to a 3-line file rendered in
full (cap not reached) and, through a 52-line file, to a truncated render
with a `... (2 more lines)` trailer. -/
theorem added_removed_render_cap_checked :
    (rustLines "a\nb\nc".data).length ≤ MAX_LINES ∧
    (format_added_removed_diff "f".data (rustLines "a\nb\nc".data) true MAX_LINES).drop 4 =
      (rustLines "a\nb\nc".data).map (fun l => '+' :: l) := by
  refine ⟨by decide, ?_⟩
  have := ((added_removed_render_cap "f".data "a\nb\nc".data true).1 (by decide)).1
  simpa using this

/-! ## Claim theorems: subprocess wire contract -/

/-- Claim C8 counterexample: a concrete commit-message invocation carries no
`--json-schema` flag — its argument vector is exactly `["--model", "haiku"]` —
so the claim that every generation invocation passes both a `--model` and a
`--json-schema` flag is false for the commit-message generator. -/
theorem commit_invocation_lacks_schema_flag :
    (commit_message_command "claude" [] "haiku" "prompt").argv = ["--model", "haiku"] ∧
    "--json-schema" ∉ (commit_message_command "claude" [] "haiku" "prompt").argv := by
  refine ⟨rfl, ?_⟩
  decide

/-- Claim C8 (amended): every generation invocation writes the full prompt
to the subprocess's standard input and never places it on the command line,
and passes a `--model <id>` flag; the bookmark generator (and the shared
structured client) additionally passes `--json-schema <schema>`, but the
commit-message generator appends no `--json-schema` flag. -/
theorem generation_wire_contract (command : String) (args : List String)
    (model prompt json_schema : String) :
    (commit_message_command command args model prompt).argv = args ++ ["--model", model] ∧
    (commit_message_command command args model prompt).stdin_data = prompt ∧
    (bookmark_command command args model prompt).argv =
      args ++ ["--model", model, "--json-schema", BOOKMARK_JSON_SCHEMA] ∧
    (bookmark_command command args model prompt).stdin_data = prompt ∧
    (claude_client_command command args model json_schema prompt).argv =
      args ++ ["--model", model, "--json-schema", json_schema] ∧
    (claude_client_command command args model json_schema prompt).stdin_data = prompt ∧
    (∀ p1 p2 : String,
       (commit_message_command command args model p1).argv =
         (commit_message_command command args model p2).argv ∧
       (bookmark_command command args model p1).argv =
         (bookmark_command command args model p2).argv ∧
       (claude_client_command command args model json_schema p1).argv =
         (claude_client_command command args model json_schema p2).argv) ∧
    (prompt ∉ args → prompt ≠ "--model" → prompt ≠ model →
       prompt ∉ (commit_message_command command args model prompt).argv) ∧
    (prompt ∉ args → prompt ≠ "--model" → prompt ≠ model →
       prompt ≠ "--json-schema" → prompt ≠ BOOKMARK_JSON_SCHEMA →
       prompt ∉ (bookmark_command command args model prompt).argv) := by
  refine ⟨rfl, rfl, rfl, rfl, rfl, rfl, fun p1 p2 => ⟨rfl, rfl, rfl⟩, ?_, ?_⟩
  · intro ha hm hmv
    simp [commit_message_command, ha, hm, hmv]
  · intro ha hm hmv hj hs
    simp [bookmark_command, ha, hm, hmv, hj, hs]

/-- Claim C8 witness: the wire-contract theorem applied at concrete values,
with the prompt shown absent from both argument vectors. -/
theorem generation_wire_contract_checked :
    "my prompt" ∉ (commit_message_command "claude" ["-p"] "haiku" "my prompt").argv ∧
    "my prompt" ∉ (bookmark_command "claude" ["-p"] "haiku" "my prompt").argv := by
  constructor
  · exact (generation_wire_contract "claude" ["-p"] "haiku" "my prompt" "s").2.2.2.2.2.2.2.1
      (by decide) (by decide) (by decide)
  · exact (generation_wire_contract "claude" ["-p"] "haiku" "my prompt" "s").2.2.2.2.2.2.2.2
      (by decide) (by decide) (by decide) (by decide) (by decide)

/-! ## Claim theorems: empty payloads fail before validation -/

/-- Claim C9: for both generators, a payload that is empty after trimming
(empty or whitespace-only) makes generation return `None` before any
grammar check runs — the outcome is `None` for every possible validation
function. -/
theorem validators_require_nonempty (stdout : List Char) (json : JsonValue) :
    (rustTrim stdout = [] →
       ∀ validate : List Char → List Char,
         commit_generate_with true stdout validate = none) ∧
    (rustTrim (bookmark_payload json) = [] →
       ∀ validate : List Char → Option (List Char),
         bookmark_generate_with true (some json) validate = none) := by
  constructor
  · intro h validate
    simp [commit_generate_with, commit_try_extract, h]
  · intro h validate
    cases hpso : parse_structured_output json with
    | none =>
      simp [bookmark_generate_with, bookmark_try_extract, hpso]
    | some structured =>
      have hpay : rustTrim (json_str_or_empty (structured.get "bookmark")).data = [] := by
        have : bookmark_payload json =
            (json_str_or_empty (structured.get "bookmark")).data := by
          simp [bookmark_payload, hpso]
        rw [← this]
        exact h
      simp [bookmark_generate_with, bookmark_try_extract, hpso, hpay]

/-- Claim C9 witness: the theorem applied to a whitespace-only stdout and to
a parsed response whose bookmark payload is whitespace-only. -/
theorem validators_require_nonempty_checked :
    commit_generate_with true "  \n ".data (commit_validate "chore: update".data) = none ∧
    bookmark_generate_with true
      (some (JsonValue.obj [("structured_output",
        JsonValue.obj [("bookmark", JsonValue.str "   ")])]))
      bookmark_validate = none := by
  constructor
  · exact (validators_require_nonempty "  \n ".data JsonValue.null).1 (by decide)
      (commit_validate "chore: update".data)
  · exact (validators_require_nonempty []
      (JsonValue.obj [("structured_output",
        JsonValue.obj [("bookmark", JsonValue.str "   ")])])).2 (by decide)
      bookmark_validate
